import Mathlib

/- Verification of the option-resolution, command-execution and pagination-cursor
   subsystem of the astra-db-go client library, via a shallow embedding of the Go
   source into Lean. -/

set_option maxHeartbeats 1000000

namespace AstraDB

/-- Go `time.Duration`: a count of nanoseconds (int64 in Go). -/
abbrev Duration := Int

/-- One second, in nanoseconds (Go `time.Second`). -/
def second : Duration := 1000000000

namespace Opts

/-- Embeds `options.TimeoutOptions` (options/api_options.go): all sub-fields are
optional pointers in Go, modelled as `Option Duration`. -/
structure TimeoutOptions where
  Request : Option Duration := none
  Connection : Option Duration := none
  BulkOperation : Option Duration := none
deriving DecidableEq, Repr

/-- Embeds `options.APIOptions` (options/api_options.go). Pointer-valued fields
become `Option`; the `*http.Client`, `*SerdesOptions` and `WarningHandler`
function values are identity-relevant only (the merge copies the pointer or
function value), so they are modelled by abstract identifiers. The Go
`map[string]string` header map is modelled as an association list (with
map-assignment semantics given by `setKey` below); `none` models a nil map. -/
structure APIOptions where
  Token : Option String := none
  Keyspace : Option String := none
  APIVersion : Option String := none
  HTTPClient : Option Nat := none
  Headers : Option (List (String × String)) := none
  Timeout : Option TimeoutOptions := none
  Serdes : Option Nat := none
  WarningHandler : Option Nat := none
deriving DecidableEq, Repr

/-- The identity of the fresh `&http.Client{}` allocated by `DefaultAPIOptions`. -/
def defaultHTTPClientId : Nat := 0

/-- Embeds `options.DefaultAPIOptions` (options/api_options.go lines 83-98). -/
def DefaultAPIOptions : APIOptions :=
  { APIVersion := some "v1"
    Keyspace := some "default_keyspace"
    HTTPClient := some defaultHTTPClientId
    Headers := some []
    Timeout := some { Request := some (30 * second) } }

/-- Go map assignment `m[k] = v` on the association-list model: replace the
first binding of `k` if present, else append. -/
def setKey : List (String × String) → String → String → List (String × String)
  | [], k, v => [(k, v)]
  | (k', v') :: rest, k, v =>
    if k' = k then (k, v) :: rest else (k', v') :: setKey rest k v

/-- Go map read `m[k]`: first binding of `k` (association lists built by
`setKey` have at most one binding per key). -/
def lookupKey : List (String × String) → String → Option String
  | [], _ => none
  | (k', v') :: rest, k => if k' = k then some v' else lookupKey rest k

/-- The last binding of `k` in an association list; on lists with duplicate
keys this is the binding that survives repeated `setKey` assignment. -/
def lookupKeyLast : List (String × String) → String → Option String
  | [], _ => none
  | (k', v') :: rest, k =>
    match lookupKeyLast rest k with
    | some v => some v
    | none => if k' = k then some v' else none

/-- The header-merge loop of `Merge` (options/api_options.go lines 140-142):
`for k, v := range layer.Headers { result.Headers[k] = v }`. -/
def mergeHeaders (base layer : List (String × String)) : List (String × String) :=
  layer.foldl (fun m kv => setKey m kv.1 kv.2) base

/-- One iteration of the layer loop of `options.Merge`
(options/api_options.go lines 117-170): a nil layer is skipped, otherwise
every non-nil field of the layer overrides the accumulated result, headers are
merged key-by-key, and timeout sub-fields are merged independently. -/
def mergeLayer (result : APIOptions) (layer : Option APIOptions) : APIOptions :=
  match layer with
  | none => result
  | some l =>
    { Token := match l.Token with | some t => some t | none => result.Token
      Keyspace := match l.Keyspace with | some k => some k | none => result.Keyspace
      APIVersion := match l.APIVersion with | some v => some v | none => result.APIVersion
      HTTPClient := match l.HTTPClient with | some h => some h | none => result.HTTPClient
      Headers := match l.Headers with
        | none => result.Headers
        | some hs => some (mergeHeaders (result.Headers.getD []) hs)
      Timeout := match l.Timeout with
        | none => result.Timeout
        | some lt =>
          let rt := result.Timeout.getD {}
          some { Request := match lt.Request with | some d => some d | none => rt.Request
                 Connection := match lt.Connection with | some d => some d | none => rt.Connection
                 BulkOperation := match lt.BulkOperation with | some d => some d | none => rt.BulkOperation }
      Serdes := match l.Serdes with | some s => some s | none => result.Serdes
      WarningHandler := match l.WarningHandler with | some w => some w | none => result.WarningHandler }

/-- Embeds `options.Merge` (options/api_options.go lines 114-173): start from
`DefaultAPIOptions`, then fold the layers in order. -/
def Merge (layers : List (Option APIOptions)) : APIOptions :=
  layers.foldl mergeLayer DefaultAPIOptions

/-- The request-timeout sub-field of a (possibly nil) timeout record. -/
def APIOptions.timeoutRequest (o : APIOptions) : Option Duration :=
  o.Timeout.bind TimeoutOptions.Request

/-- The connection-timeout sub-field of a (possibly nil) timeout record. -/
def APIOptions.timeoutConnection (o : APIOptions) : Option Duration :=
  o.Timeout.bind TimeoutOptions.Connection

/-- The bulk-operation-timeout sub-field of a (possibly nil) timeout record. -/
def APIOptions.timeoutBulk (o : APIOptions) : Option Duration :=
  o.Timeout.bind TimeoutOptions.BulkOperation

/-- The value a single layer contributes for header key `k`: `none` when its
map is nil or lacks the key, else the surviving binding. -/
def layerHeaderValue (k : String) (o : APIOptions) : Option String :=
  match o.Headers with
  | none => none
  | some hs => lookupKeyLast hs k

/-- The value of header key `k` in a merged result (whose header map is always
populated, so a nil map reads as empty). -/
def resultHeaderValue (o : APIOptions) (k : String) : Option String :=
  lookupKey (o.Headers.getD []) k

/-- An optional new value overriding an old one: defined values win. -/
def override : Option α → Option α → Option α
  | some v, _ => some v
  | none, old => old

/-- Written from the spec's words, for comparison with `Merge`: the value of a
field in the merged result is the value of the last layer (scanning in order,
nil layers skipped) that defines the field, and `dflt` when no layer does. -/
def lastOrDefault (dflt : Option α) (f : APIOptions → Option α)
    (layers : List (Option APIOptions)) : Option α :=
  layers.foldl
    (fun acc l =>
      match l with
      | none => acc
      | some L => override (f L) acc)
    dflt

lemma foldl_mergeLayer_proj {α : Type} (proj flayer : APIOptions → Option α)
    (hproj : ∀ r L, proj (mergeLayer r (some L)) = override (flayer L) (proj r)) :
    ∀ (layers : List (Option APIOptions)) (r : APIOptions),
      proj (layers.foldl mergeLayer r) = lastOrDefault (proj r) flayer layers := by
  intro layers
  induction layers with
  | nil => intro r; rfl
  | cons l ls ih =>
    intro r
    have hstep : lastOrDefault (proj r) flayer (l :: ls) =
        lastOrDefault
          (match l with
           | none => proj r
           | some L => override (flayer L) (proj r))
          flayer ls := by
      cases l <;> rfl
    rw [List.foldl_cons, hstep]
    cases l with
    | none => exact ih r
    | some L =>
      rw [ih (mergeLayer r (some L)), hproj r L]

lemma lookupKey_setKey (m : List (String × String)) (k v q : String) :
    lookupKey (setKey m k v) q = if k = q then some v else lookupKey m q := by
  induction m with
  | nil =>
    by_cases h : k = q <;> simp [setKey, lookupKey, h]
  | cons kv rest ih =>
    obtain ⟨k', v'⟩ := kv
    by_cases hk : k' = k
    · subst hk
      by_cases hq : k' = q <;> simp [setKey, lookupKey, hq]
    · by_cases hq : k' = q
      · subst hq
        have : ¬ k = k' := fun h => hk h.symm
        simp [setKey, lookupKey, hk, this]
      · simp [setKey, lookupKey, hk, hq, ih]

lemma lookupKey_mergeHeaders (layer : List (String × String)) :
    ∀ (base : List (String × String)) (q : String),
      lookupKey (mergeHeaders base layer) q =
        layer.foldl (fun a kv => if kv.1 = q then some kv.2 else a) (lookupKey base q) := by
  induction layer with
  | nil => intro base q; rfl
  | cons kv rest ih =>
    intro base q
    simp only [mergeHeaders, List.foldl] at *
    rw [ih (setKey base kv.1 kv.2) q, lookupKey_setKey]

lemma foldl_lastWins (rest : List (String × String)) (q : String) :
    ∀ (a : Option String),
      rest.foldl (fun a kv => if kv.1 = q then some kv.2 else a) a =
        override (lookupKeyLast rest q) a := by
  induction rest with
  | nil => intro a; rfl
  | cons kv rest ih =>
    obtain ⟨k', v'⟩ := kv
    intro a
    rw [List.foldl_cons, ih]
    rcases hres : lookupKeyLast rest q with _ | v
    · simp only [lookupKeyLast, hres, override]
      by_cases h : k' = q <;> simp [h, override]
    · simp only [lookupKeyLast, hres, override]

lemma mergeLayer_headerValue (r : APIOptions) (L : APIOptions) (k : String) :
    resultHeaderValue (mergeLayer r (some L)) k =
      override (layerHeaderValue k L) (resultHeaderValue r k) := by
  rcases hL : L.Headers with _ | hs
  · simp [mergeLayer, resultHeaderValue, layerHeaderValue, hL, override]
  · simp only [mergeLayer, resultHeaderValue, layerHeaderValue, hL, Option.getD_some]
    rw [lookupKey_mergeHeaders, foldl_lastWins]

lemma merge_headers_isSome (layers : List (Option APIOptions)) :
    ∀ (r : APIOptions), r.Headers.isSome → (layers.foldl mergeLayer r).Headers.isSome := by
  induction layers with
  | nil => intro r h; exact h
  | cons l ls ih =>
    intro r h
    cases l with
    | none => exact ih r h
    | some L =>
      apply ih
      rcases hL : L.Headers with _ | hs
      · simpa [mergeLayer, hL] using h
      · simp [mergeLayer, hL]

lemma merge_headers_untouched (layers : List (Option APIOptions)) :
    ∀ (r : APIOptions),
      (∀ l ∈ layers, l.bind APIOptions.Headers = none) →
      (layers.foldl mergeLayer r).Headers = r.Headers := by
  induction layers with
  | nil => intro r _; rfl
  | cons l ls ih =>
    intro r h
    cases l with
    | none =>
      exact ih r (fun l hl => h l (List.mem_cons_of_mem _ hl))
    | some L =>
      have hL : L.Headers = none := h (some L) (List.mem_cons_self _ _)
      have hone : (mergeLayer r (some L)).Headers = r.Headers := by
        simp [mergeLayer, hL]
      rw [List.foldl_cons,
        ih (mergeLayer r (some L)) (fun l hl => h l (List.mem_cons_of_mem _ hl)), hone]

lemma mergeLayer_timeoutRequest (r L : APIOptions) :
    (mergeLayer r (some L)).timeoutRequest =
      override L.timeoutRequest r.timeoutRequest := by
  rcases hT : L.Timeout with _ | lt
  · simp [mergeLayer, APIOptions.timeoutRequest, hT, override]
  · rcases hR : lt.Request with _ | d
    · rcases hrt : r.Timeout with _ | rt <;>
        simp [mergeLayer, APIOptions.timeoutRequest, hT, hR, hrt, override]
    · simp [mergeLayer, APIOptions.timeoutRequest, hT, hR, override]

lemma mergeLayer_timeoutConnection (r L : APIOptions) :
    (mergeLayer r (some L)).timeoutConnection =
      override L.timeoutConnection r.timeoutConnection := by
  rcases hT : L.Timeout with _ | lt
  · simp [mergeLayer, APIOptions.timeoutConnection, hT, override]
  · rcases hR : lt.Connection with _ | d
    · rcases hrt : r.Timeout with _ | rt <;>
        simp [mergeLayer, APIOptions.timeoutConnection, hT, hR, hrt, override]
    · simp [mergeLayer, APIOptions.timeoutConnection, hT, hR, override]

lemma mergeLayer_timeoutBulk (r L : APIOptions) :
    (mergeLayer r (some L)).timeoutBulk =
      override L.timeoutBulk r.timeoutBulk := by
  rcases hT : L.Timeout with _ | lt
  · simp [mergeLayer, APIOptions.timeoutBulk, hT, override]
  · rcases hR : lt.BulkOperation with _ | d
    · rcases hrt : r.Timeout with _ | rt <;>
        simp [mergeLayer, APIOptions.timeoutBulk, hT, hR, hrt, override]
    · simp [mergeLayer, APIOptions.timeoutBulk, hT, hR, override]

lemma mergeLayer_scalar_Token (r L : APIOptions) :
    (mergeLayer r (some L)).Token = override L.Token r.Token := by
  rcases h : L.Token <;> simp [mergeLayer, override, h]

lemma mergeLayer_scalar_Keyspace (r L : APIOptions) :
    (mergeLayer r (some L)).Keyspace = override L.Keyspace r.Keyspace := by
  rcases h : L.Keyspace <;> simp [mergeLayer, override, h]

lemma mergeLayer_scalar_APIVersion (r L : APIOptions) :
    (mergeLayer r (some L)).APIVersion = override L.APIVersion r.APIVersion := by
  rcases h : L.APIVersion <;> simp [mergeLayer, override, h]

lemma mergeLayer_scalar_HTTPClient (r L : APIOptions) :
    (mergeLayer r (some L)).HTTPClient = override L.HTTPClient r.HTTPClient := by
  rcases h : L.HTTPClient <;> simp [mergeLayer, override, h]

lemma mergeLayer_scalar_Serdes (r L : APIOptions) :
    (mergeLayer r (some L)).Serdes = override L.Serdes r.Serdes := by
  rcases h : L.Serdes <;> simp [mergeLayer, override, h]

lemma mergeLayer_scalar_WarningHandler (r L : APIOptions) :
    (mergeLayer r (some L)).WarningHandler = override L.WarningHandler r.WarningHandler := by
  rcases h : L.WarningHandler <;> simp [mergeLayer, override, h]

end Opts

end AstraDB

namespace AstraDB

namespace Opts

/-- C1: for every ordered sequence of option layers passed to `Merge` and every
scalar field (Token, Keyspace, APIVersion, HTTPClient, Serdes, WarningHandler),
the result's field equals the value of the last layer (scanning in order, nil
layers skipped) that defines the field, and when no layer defines it, the
documented default: API version "v1", keyspace "default_keyspace", request
timeout 30s, empty header map (Token, Serdes and WarningHandler default to
unset; HTTPClient defaults to a fresh client). -/
theorem merge_scalar_last_layer_wins (layers : List (Option APIOptions)) :
    (Merge layers).Token = lastOrDefault none (fun o => o.Token) layers ∧
    (Merge layers).Keyspace = lastOrDefault (some "default_keyspace") (fun o => o.Keyspace) layers ∧
    (Merge layers).APIVersion = lastOrDefault (some "v1") (fun o => o.APIVersion) layers ∧
    (Merge layers).HTTPClient = lastOrDefault (some defaultHTTPClientId) (fun o => o.HTTPClient) layers ∧
    (Merge layers).Serdes = lastOrDefault none (fun o => o.Serdes) layers ∧
    (Merge layers).WarningHandler = lastOrDefault none (fun o => o.WarningHandler) layers ∧
    (Merge layers).timeoutRequest = lastOrDefault (some (30 * second)) APIOptions.timeoutRequest layers ∧
    ((∀ l ∈ layers, l.bind APIOptions.Headers = none) → (Merge layers).Headers = some []) :=
  ⟨foldl_mergeLayer_proj (fun o => o.Token) (fun o => o.Token) mergeLayer_scalar_Token layers DefaultAPIOptions,
   foldl_mergeLayer_proj (fun o => o.Keyspace) (fun o => o.Keyspace) mergeLayer_scalar_Keyspace layers DefaultAPIOptions,
   foldl_mergeLayer_proj (fun o => o.APIVersion) (fun o => o.APIVersion) mergeLayer_scalar_APIVersion layers DefaultAPIOptions,
   foldl_mergeLayer_proj (fun o => o.HTTPClient) (fun o => o.HTTPClient) mergeLayer_scalar_HTTPClient layers DefaultAPIOptions,
   foldl_mergeLayer_proj (fun o => o.Serdes) (fun o => o.Serdes) mergeLayer_scalar_Serdes layers DefaultAPIOptions,
   foldl_mergeLayer_proj (fun o => o.WarningHandler) (fun o => o.WarningHandler) mergeLayer_scalar_WarningHandler layers DefaultAPIOptions,
   foldl_mergeLayer_proj APIOptions.timeoutRequest APIOptions.timeoutRequest
     mergeLayer_timeoutRequest layers DefaultAPIOptions,
   fun h => merge_headers_untouched layers DefaultAPIOptions h⟩

/-- Witness for C1: a concrete three-layer merge (with a nil layer in the
middle and no layer defining headers) where the last defined value wins, the
keyspace default applies, and the header map defaults to empty. -/
theorem merge_scalar_last_layer_wins_witness :
    (Merge [some { Token := some "t1", APIVersion := some "v2" }, none,
            some { Token := some "t2", Keyspace := some "ks" }]).Token = some "t2" ∧
    (Merge [some { Token := some "t1", APIVersion := some "v2" }, none,
            some { Token := some "t2", Keyspace := some "ks" }]).Keyspace = some "ks" ∧
    (Merge [some { Token := some "t1", APIVersion := some "v2" }, none,
            some { Token := some "t2", Keyspace := some "ks" }]).APIVersion = some "v2" ∧
    (Merge [some { Token := some "t1", APIVersion := some "v2" }, none,
            some { Token := some "t2", Keyspace := some "ks" }]).timeoutRequest = some (30 * second) ∧
    (Merge [some { Token := some "t1", APIVersion := some "v2" }, none,
            some { Token := some "t2", Keyspace := some "ks" }]).Headers = some [] := by
  have h := merge_scalar_last_layer_wins
    [some { Token := some "t1", APIVersion := some "v2" }, none,
     some { Token := some "t2", Keyspace := some "ks" }]
  refine ⟨?_, ?_, ?_, ?_, ?_⟩
  · rw [h.1]; rfl
  · rw [h.2.1]; rfl
  · rw [h.2.2.1]; rfl
  · rw [h.2.2.2.2.2.2.1]; rfl
  · exact h.2.2.2.2.2.2.2 (by decide)

/-- C7: for every sequence of layers, the merged header map is the key-by-key
union of the layers' maps with the later layer winning on collision (a key
defined by no layer is absent, so earlier distinct keys are preserved and the
map is always populated), and each timeout sub-field (request, connection,
bulk) is merged independently with the same last-wins rule. -/
theorem merge_header_union_timeout_independent
    (layers : List (Option APIOptions)) (k : String) :
    resultHeaderValue (Merge layers) k = lastOrDefault none (layerHeaderValue k) layers ∧
    (Merge layers).Headers.isSome = true ∧
    (Merge layers).timeoutRequest = lastOrDefault (some (30 * second)) APIOptions.timeoutRequest layers ∧
    (Merge layers).timeoutConnection = lastOrDefault none APIOptions.timeoutConnection layers ∧
    (Merge layers).timeoutBulk = lastOrDefault none APIOptions.timeoutBulk layers :=
  ⟨foldl_mergeLayer_proj (fun o => resultHeaderValue o k) (layerHeaderValue k)
     (fun r L => mergeLayer_headerValue r L k) layers DefaultAPIOptions,
   merge_headers_isSome layers DefaultAPIOptions rfl,
   foldl_mergeLayer_proj APIOptions.timeoutRequest APIOptions.timeoutRequest
     mergeLayer_timeoutRequest layers DefaultAPIOptions,
   foldl_mergeLayer_proj APIOptions.timeoutConnection APIOptions.timeoutConnection
     mergeLayer_timeoutConnection layers DefaultAPIOptions,
   foldl_mergeLayer_proj APIOptions.timeoutBulk APIOptions.timeoutBulk
     mergeLayer_timeoutBulk layers DefaultAPIOptions⟩

end Opts

end AstraDB

namespace AstraDB

/-- A JSON value, as manipulated by Go's `encoding/json`. Objects are ordered
field lists; on duplicate keys Go's decoder lets the last occurrence win. -/
inductive Json where
  | null
  | bool (b : Bool)
  | num (n : Int)
  | str (s : String)
  | arr (elems : List Json)
  | obj (fields : List (String × Json))

/-- The value of key `k` in a JSON object (last occurrence wins, as in Go's
decoder); `none` for a missing key or a non-object. -/
def Json.getKey : Json → String → Option Json
  | .obj fields, k => fields.foldl (fun acc kv => if kv.1 = k then some kv.2 else acc) none
  | _, _ => none

/-- Go `json.Unmarshal` of a string-typed struct field: a string value decodes,
anything else (absent key, null, wrong type, non-object) leaves the field at
its zero value `""`. -/
def Json.getString (j : Json) (k : String) : String :=
  match j.getKey k with
  | some (.str s) => s
  | _ => ""

/-- Embeds `DataAPIError` (the error record of the `astradb` package): the
structured error shape returned by the Data API. -/
structure DataAPIError where
  Message : String := ""
  ErrorCode : String := ""
  ExceptionClass : String := ""
  Family : String := ""
  Scope : String := ""
  Title : String := ""
  ID : String := ""
deriving DecidableEq, Repr

/-- Go `json.Unmarshal` of a JSON value into a `DataAPIError` struct. -/
def unmarshalDataAPIError (j : Json) : DataAPIError :=
  { Message := j.getString "message"
    ErrorCode := j.getString "errorCode"
    ExceptionClass := j.getString "exceptionClass"
    Family := j.getString "family"
    Scope := j.getString "scope"
    Title := j.getString "title"
    ID := j.getString "id" }

/-- Embeds `(*DataAPIError).Error()`: the message (or a placeholder), followed
by the populated metadata fields in parentheses. -/
def DataAPIError.render (a : DataAPIError) : String :=
  let msg := if a.Message = "" then "unknown data api error" else a.Message
  let meta :=
    (if a.ErrorCode = "" then [] else ["code: " ++ a.ErrorCode]) ++
    (if a.Family = "" then [] else ["family: " ++ a.Family]) ++
    (if a.Scope = "" then [] else ["scope: " ++ a.Scope])
  if meta = [] then msg else msg ++ " (" ++ String.intercalate ", " meta ++ ")"

/-- Embeds `DataAPIErrors.Error()`: `errors.Join` of the member errors, whose
rendering joins each member's rendering with a newline ("" when empty). -/
def renderDataAPIErrors (es : List DataAPIError) : String :=
  if es = [] then "" else String.intercalate "\n" (es.map DataAPIError.render)

/-- Go `json.Unmarshal` of a JSON value into the `DataAPIErrors` slice: an
array decodes element-wise (each element best-effort, errors ignored by the
caller), anything else leaves the slice at its zero value nil. -/
def unmarshalDataAPIErrors (j : Json) : List DataAPIError :=
  match j with
  | .arr xs => xs.map unmarshalDataAPIError
  | _ => []

/-- An HTTP response body: the raw bytes together with their JSON parse
(`none` when the bytes are not well-formed JSON). -/
structure Body where
  raw : String
  parsed : Option Json

/-- The `errors` array of a response body, as decoded into the `apiErrs`
struct by `ExtractErrors`: empty when the body is unparseable, is not an
object, lacks the key, or holds a non-array there. -/
def bodyErrors (b : Body) : List DataAPIError :=
  match b.parsed with
  | none => []
  | some j =>
    match j.getKey "errors" with
    | none => []
    | some v => unmarshalDataAPIErrors v

/-- The message of the single structured error record that the status-≥400
branch of `ExtractErrors` decodes from the body ("" when absent). -/
def bodyTransportMessage (b : Body) : String :=
  match b.parsed with
  | none => ""
  | some j => (unmarshalDataAPIError j).Message

/-- The error value returned by command execution: either a plain message
(`errors.New`) or the combined `DataAPIErrors` value. -/
inductive CmdError where
  | message (s : String)
  | dataAPIErrors (es : List DataAPIError)
deriving DecidableEq, Repr

/-- The `Error()` rendering of a `CmdError`. -/
def CmdError.render : CmdError → String
  | .message s => s
  | .dataAPIErrors es => renderDataAPIErrors es

/-- Embeds `(*command).ExtractErrors` (command.go lines 207-227): for status
≥ 400 fail with the parsed transport message or else the raw body; otherwise
decode the `errors` array (parse failures ignored) and fail with the combined
error exactly when it is non-empty. The body is returned in every branch. -/
def ExtractErrors (statusCode : Nat) (body : Body) : Body × Option CmdError :=
  if 400 ≤ statusCode then
    let transportErr :=
      match body.parsed with
      | some j => unmarshalDataAPIError j
      | none => {}
    if 0 < transportErr.Message.length then (body, some (.message transportErr.Message))
    else (body, some (.message body.raw))
  else
    let errs := bodyErrors body
    if 0 < errs.length then (body, some (.dataAPIErrors errs)) else (body, none)

/-- Embeds `results.Warning` (results/warnings.go). -/
structure Warning where
  Message : String := ""
  ErrorCode : String := ""
  Family : String := ""
  Scope : String := ""
  Title : String := ""
  ID : String := ""
deriving DecidableEq, Repr

/-- Go `json.Unmarshal` of a JSON value into a `Warning` struct. -/
def unmarshalWarning (j : Json) : Warning :=
  { Message := j.getString "message"
    ErrorCode := j.getString "errorCode"
    Family := j.getString "family"
    Scope := j.getString "scope"
    Title := j.getString "title"
    ID := j.getString "id" }

/-- The `warnings` array nested under the body's `status` section: empty when
the body is unparseable or any step of the nesting is missing or ill-typed. -/
def bodyWarnings (b : Body) : List Warning :=
  match b.parsed with
  | none => []
  | some j =>
    match j.getKey "status" with
    | none => []
    | some st =>
      match st.getKey "warnings" with
      | some (.arr xs) => xs.map unmarshalWarning
      | _ => []

/-- The classification of one HTTP response: payload, warnings, error, and the
sequence of warning-handler invocations performed before returning. -/
structure ClassifiedResponse where
  payload : Body
  warnings : List Warning
  err : Option CmdError
  handlerCalls : List Warning

/-- Modelled from the spec: the repository's three-result `ExtractErrors`
(the variant `command_test.go` calls with a warning-handler argument and three
results) is not among the provided source files — only `command_test.go`
exercises it. Per the spec's response-classification contract: status ≥ 400
classifies as a transport error with no warnings extracted; otherwise the
`errors` array yields the combined error, the `warnings` array (nested under
the status section) is extracted regardless of the error, a warning parse
failure is swallowed, and a configured handler is invoked once per warning,
in order, before returning. The handler is modelled by its identity, with the
invocations it would receive recorded in `handlerCalls`. -/
def ExtractErrorsW (statusCode : Nat) (body : Body) (handler : Option Nat) :
    ClassifiedResponse :=
  if 400 ≤ statusCode then
    let transportErr :=
      match body.parsed with
      | some j => unmarshalDataAPIError j
      | none => {}
    let e :=
      if 0 < transportErr.Message.length then CmdError.message transportErr.Message
      else CmdError.message body.raw
    { payload := body, warnings := [], err := some e, handlerCalls := [] }
  else
    let errs := bodyErrors body
    let ws := bodyWarnings body
    { payload := body
      warnings := ws
      err := if 0 < errs.length then some (.dataAPIErrors errs) else none
      handlerCalls := match handler with | some _ => ws | none => [] }

lemma stringLength_pos_iff (s : String) : 0 < s.length ↔ s ≠ "" := by
  constructor
  · intro h hc
    subst hc
    simp [String.length] at h
  · intro h
    cases s with
    | mk data =>
      cases data with
      | nil => exact absurd rfl h
      | cons c cs => simp [String.length]

lemma transportMessage_eq (b : Body) :
    (match b.parsed with
     | some j => unmarshalDataAPIError j
     | none => ({} : DataAPIError)).Message = bodyTransportMessage b := by
  rcases hp : b.parsed with _ | j <;> simp [bodyTransportMessage, hp]

/-- C5: for every response with status < 400 whose body parses to a non-empty
`errors` array, `ExtractErrors` returns a non-nil combined error whose entries
are exactly the parsed Data API Error records in order, and whose rendering
joins each member's rendering; when the array is absent, empty, or the body is
unparseable, the returned error is nil. The body is returned either way. -/
theorem extract_errors_partial_failure (statusCode : Nat) (body : Body)
    (h : statusCode < 400) :
    (ExtractErrors statusCode body).1 = body ∧
    (bodyErrors body = [] → (ExtractErrors statusCode body).2 = none) ∧
    (bodyErrors body ≠ [] →
      (ExtractErrors statusCode body).2 = some (.dataAPIErrors (bodyErrors body)) ∧
      ∀ e, (ExtractErrors statusCode body).2 = some e →
        e.render = String.intercalate "\n" ((bodyErrors body).map DataAPIError.render)) := by
  have hnot : ¬ 400 ≤ statusCode := by omega
  refine ⟨?_, ?_, ?_⟩
  · simp only [ExtractErrors, if_neg hnot]
    split <;> rfl
  · intro he
    simp [ExtractErrors, if_neg hnot, he]
  · intro he
    have hlen : 0 < (bodyErrors body).length := List.length_pos.mpr he
    refine ⟨by simp only [ExtractErrors, if_neg hnot, if_pos hlen], ?_⟩
    intro e hE
    simp only [ExtractErrors, if_neg hnot, if_pos hlen, Option.some.injEq] at hE
    subst hE
    simp [CmdError.render, renderDataAPIErrors, he]

/-- C6: for every response with status ≥ 400, `ExtractErrors` returns a
non-nil error — the parsed structured message when non-empty, else the raw
body text — the raw payload is still returned alongside the error, and the
classification extracts no warnings and performs no handler calls in this
branch. -/
theorem extract_errors_transport (statusCode : Nat) (body : Body)
    (handler : Option Nat) (h : 400 ≤ statusCode) :
    (ExtractErrors statusCode body).1 = body ∧
    (ExtractErrors statusCode body).2 ≠ none ∧
    (bodyTransportMessage body ≠ "" →
      (ExtractErrors statusCode body).2 = some (.message (bodyTransportMessage body))) ∧
    (bodyTransportMessage body = "" →
      (ExtractErrors statusCode body).2 = some (.message body.raw)) ∧
    (ExtractErrorsW statusCode body handler).warnings = [] ∧
    (ExtractErrorsW statusCode body handler).handlerCalls = [] := by
  refine ⟨?_, ?_, ?_, ?_, ?_, ?_⟩
  · simp only [ExtractErrors, if_pos h]
    split <;> rfl
  · simp only [ExtractErrors, if_pos h]
    split <;> simp
  · intro hm
    have hlen : 0 < (bodyTransportMessage body).length := (stringLength_pos_iff _).mpr hm
    simp only [ExtractErrors, if_pos h, transportMessage_eq, if_pos hlen]
  · intro hm
    have hlen : ¬ 0 < (bodyTransportMessage body).length := by
      rw [hm]
      decide
    simp only [ExtractErrors, if_pos h, transportMessage_eq, if_neg hlen]
  · simp only [ExtractErrorsW, if_pos h]
  · simp only [ExtractErrorsW, if_pos h]

/-- C3: for every response with status < 400, the classification also parses
the `warnings` array and returns it regardless of whether an error is present;
its error component is exactly the error classification of `ExtractErrors`
(so a warning parse failure never becomes a caller-visible error — an
unparseable body yields no warnings and a nil error); and when a warning
handler is configured it is invoked once per warning, in order, before the
call returns. -/
theorem extract_warnings_nonfatal (statusCode : Nat) (body : Body)
    (handler : Option Nat) (h : statusCode < 400) :
    (ExtractErrorsW statusCode body handler).payload = body ∧
    (ExtractErrorsW statusCode body handler).warnings = bodyWarnings body ∧
    (ExtractErrorsW statusCode body handler).err = (ExtractErrors statusCode body).2 ∧
    (handler ≠ none →
      (ExtractErrorsW statusCode body handler).handlerCalls = bodyWarnings body) ∧
    (handler = none → (ExtractErrorsW statusCode body handler).handlerCalls = []) ∧
    (body.parsed = none →
      (ExtractErrorsW statusCode body handler).warnings = [] ∧
      (ExtractErrorsW statusCode body handler).err = none) := by
  have hnot : ¬ 400 ≤ statusCode := by omega
  refine ⟨?_, ?_, ?_, ?_, ?_, ?_⟩
  · simp only [ExtractErrorsW, if_neg hnot]
  · simp only [ExtractErrorsW, if_neg hnot]
  · simp only [ExtractErrorsW, ExtractErrors, if_neg hnot]
    split <;> rfl
  · intro hh
    rcases handler with _ | hid
    · exact absurd rfl hh
    · simp only [ExtractErrorsW, if_neg hnot]
  · intro hh
    subst hh
    simp only [ExtractErrorsW, if_neg hnot]
  · intro hp
    constructor
    · simp only [ExtractErrorsW, if_neg hnot, bodyWarnings, hp]
    · simp only [ExtractErrorsW, if_neg hnot, bodyErrors, hp, List.length_nil,
        lt_irrefl, if_false]

/-- The partial-failure response of `TestCommandAlreadyExistsErr`
(command_test.go): status section plus a single-element `errors` array. -/
def alreadyExistsBody : Body :=
  { raw := "irrelevant raw bytes"
    parsed := some (.obj
      [("status", .obj [("insertedIds", .arr [])]),
       ("errors", .arr
         [.obj
           [("message", .str "Document already exists with the given _id"),
            ("errorCode", .str "DOCUMENT_ALREADY_EXISTS"),
            ("id", .str "4055f085-68d8-4c2d-8d91-90a0722b5fef"),
            ("title", .str "Document already exists with the given _id"),
            ("family", .str "REQUEST"),
            ("scope", .str "DOCUMENT")]])]) }

/-- Witness for C5: on the concrete partial-failure response at status 200,
the combined error carries exactly the one parsed record, which has the
expected error code. -/
theorem extract_errors_partial_failure_witness :
    (ExtractErrors 200 alreadyExistsBody).1 = alreadyExistsBody ∧
    (ExtractErrors 200 alreadyExistsBody).2 =
      some (.dataAPIErrors (bodyErrors alreadyExistsBody)) ∧
    (bodyErrors alreadyExistsBody).map DataAPIError.ErrorCode =
      ["DOCUMENT_ALREADY_EXISTS"] := by
  have h := extract_errors_partial_failure 200 alreadyExistsBody (by decide)
  refine ⟨h.1, (h.2.2 (by decide)).1, by decide⟩

/-- The hibernation response of `TestCommandDBResuming` (command_test.go). -/
def resumingBody : Body :=
  { raw := "the raw response text"
    parsed := some (.obj
      [("message",
        .str "Your database is resuming from hibernation and will be available in the next few minutes.")]) }

/-- Witness for C6: the concrete 503 hibernation response classifies as a
non-nil error carrying the body's message, with no warnings extracted. -/
theorem extract_errors_transport_witness :
    (ExtractErrors 503 resumingBody).2 =
      some (.message "Your database is resuming from hibernation and will be available in the next few minutes.") ∧
    (ExtractErrorsW 503 resumingBody (some 1)).warnings = [] := by
  have h := extract_errors_transport 503 resumingBody (some 1) (by decide)
  refine ⟨?_, h.2.2.2.2.1⟩
  have hm := h.2.2.1 (by decide)
  rw [hm]
  rfl

/-- A success response carrying two warnings nested under its status section,
as in `TestCommandWarnings` (command_test.go). -/
def warningsBody : Body :=
  { raw := "warnings raw bytes"
    parsed := some (.obj
      [("data", .obj [("documents", .arr []), ("nextPageState", .null)]),
       ("status", .obj
         [("sortedRowCount", .num 6),
          ("warnings", .arr
            [.obj
              [("errorCode", .str "IN_MEMORY_SORTING_DUE_TO_NON_PARTITION_SORTING"),
               ("message", .str "The command was executed using in memory sorting"),
               ("family", .str "REQUEST"),
               ("scope", .str "WARNING")],
             .obj
              [("errorCode", .str "ZERO_FILTER_OPERATIONS"),
               ("message", .str "Zero filters were provided in the filter for this query"),
               ("family", .str "REQUEST"),
               ("scope", .str "WARNING")]])])]) }

/-- Witness for C3: on the concrete two-warning success response at status
200, exactly two warnings are extracted, the error is nil, and the configured
handler receives both warnings. -/
theorem extract_warnings_nonfatal_witness :
    (ExtractErrorsW 200 warningsBody (some 1)).warnings.length = 2 ∧
    (ExtractErrorsW 200 warningsBody (some 1)).err = none ∧
    (ExtractErrorsW 200 warningsBody (some 1)).handlerCalls.length = 2 := by
  have h := extract_warnings_nonfatal 200 warningsBody (some 1) (by decide)
  refine ⟨?_, ?_, ?_⟩
  · rw [h.2.1]
    decide
  · rw [h.2.2.1]
    decide
  · rw [h.2.2.2.1 (by decide)]
    decide

/-- Escape of one character inside a JSON string literal (quotation mark and
backslash; other characters in the inputs of interest pass through). -/
def jsonEscapeChar (c : Char) : String :=
  if c = '\\' then "\\\\"
  else if c = '"' then "\\\""
  else String.singleton c

/-- The JSON string literal for `s`. -/
def jsonQuote (s : String) : String :=
  "\"" ++ String.join (s.toList.map jsonEscapeChar) ++ "\""

mutual

/-- Compact JSON serialization of a value, with object fields in their given
order (Go sorts map keys, which coincides for the single-key envelope). -/
def Json.render : Json → String
  | .null => "null"
  | .bool b => if b then "true" else "false"
  | .num n => toString n
  | .str s => jsonQuote s
  | .arr xs => "[" ++ renderElems xs ++ "]"
  | .obj fs => "\x7b" ++ renderFields fs ++ "\x7d"

/-- Comma-separated rendering of array elements. -/
def renderElems : List Json → String
  | [] => ""
  | [x] => x.render
  | x :: xs => x.render ++ "," ++ renderElems xs

/-- Comma-separated rendering of object fields. -/
def renderFields : List (String × Json) → String
  | [] => ""
  | [(k, v)] => jsonQuote k ++ ":" ++ v.render
  | (k, v) :: fs => jsonQuote k ++ ":" ++ v.render ++ "," ++ renderFields fs

end

/-- Embeds the `command` struct (command.go), restricted to the fields its
`MarshalJSON` reads: the command name and the payload. -/
structure Command where
  name : String
  payload : Json

/-- Embeds `command.MarshalJSON` (command.go lines 136-143): with a non-empty
name, marshal the one-key map from the name to the payload; with an empty
name, marshal the payload directly. -/
def Command.marshalJSON (c : Command) : Json :=
  if 0 < c.name.length then .obj [(c.name, c.payload)] else c.payload

/-- C8: for every command, a non-empty name serializes to exactly the one-key
envelope object mapping the name to the payload, and an empty name serializes
the payload directly. -/
theorem command_envelope_shape (name : String) (payload : Json) :
    (name ≠ "" →
      (Command.mk name payload).marshalJSON = .obj [(name, payload)] ∧
      ((Command.mk name payload).marshalJSON).render =
        "\x7b" ++ jsonQuote name ++ ":" ++ payload.render ++ "\x7d") ∧
    (name = "" → (Command.mk name payload).marshalJSON = payload) := by
  constructor
  · intro hn
    have hlen : 0 < name.length := (stringLength_pos_iff _).mpr hn
    constructor
    · simp only [Command.marshalJSON, if_pos hlen]
    · simp only [Command.marshalJSON, if_pos hlen, Json.render, renderFields]
      simp [String.append_assoc]
  · intro hn
    subst hn
    simp [Command.marshalJSON]

/-- Witness for C8: `build("insertOne", obj with a document field)` serializes
to exactly the one-key envelope, character for character. -/
theorem command_envelope_shape_witness :
    (Command.mk "insertOne"
      (.obj [("document", .obj [("_id", .str "1")])])).marshalJSON.render =
      "\x7b\"insertOne\":\x7b\"document\":\x7b\"_id\":\"1\"\x7d\x7d\x7d" := by
  have h := command_envelope_shape "insertOne" (.obj [("document", .obj [("_id", .str "1")])])
  rw [(h.1 (by decide)).2]
  rfl

end AstraDB

namespace AstraDB

namespace Cur

/-- Embeds `cursor.CursorState` (cursor/cursor.go). -/
inductive CursorState where
  | Idle
  | Active
  | Exhausted
  | Closed
deriving DecidableEq, Repr

/-- The errors a cursor operation can surface: `ErrCursorClosed`,
`ErrNoCurrentDocument`, or an arbitrary error value from the page fetcher
(identified by its message). -/
inductive GoError where
  | cursorClosed
  | noCurrentDocument
  | fetchFailure (s : String)
deriving DecidableEq, Repr

/-- Embeds `cursor.PageFetcher` for a pure fetcher: from a page state, the
documents, the next page state, and an optional error. -/
abbrev PageFetcher := Option String → List Json × Option String × Option GoError

/-- Embeds the `cursor.Cursor` struct (cursor/cursor.go). The Go field
`fetcher` may be nil (as `NewWithError` leaves it), hence `Option`. -/
structure Cursor where
  fetcher : Option PageFetcher
  state : CursorState
  buffer : List Json
  position : Int
  nextPageState : Option String
  err : Option GoError
  initialized : Bool

/-- Embeds `cursor.New` (cursor/cursor.go lines 107-114). -/
def New (f : PageFetcher) : Cursor :=
  { fetcher := some f
    state := .Idle
    buffer := []
    position := -1
    nextPageState := none
    err := none
    initialized := false }

/-- Embeds `cursor.NewWithError` (cursor/cursor.go lines 118-123): the
remaining fields take their Go zero values (`position` is 0). -/
def NewWithError (e : GoError) : Cursor :=
  { fetcher := none
    state := .Exhausted
    buffer := []
    position := 0
    nextPageState := none
    err := some e
    initialized := false }

/-- The emptiness test `nextPageState == nil || *nextPageState == ""` used by
`Next`, `All`, `NewWithInitialData` and `HasNextPage`. -/
def pageTokenDone : Option String → Bool
  | none => true
  | some s => s == ""

/-- Embeds `cursor.NewWithInitialData` (cursor/cursor.go lines 127-141). -/
def NewWithInitialData (documents : List Json) (nextPageState : Option String)
    (f : Option PageFetcher) : Cursor :=
  { fetcher := f
    state := if documents.length = 0 ∧ pageTokenDone nextPageState then .Exhausted else .Idle
    buffer := documents
    position := -1
    nextPageState := nextPageState
    err := none
    initialized := true }

/-- Embeds `fetchPageLocked` (cursor/cursor.go lines 217-228): on fetcher
error the cursor is unchanged; on success the buffer is replaced wholesale,
the position reset to -1 and the token updated. The third component counts
fetcher invocations (0 for the nil fetcher, whose call would be a Go panic,
modelled as a fetch failure). -/
def fetchPage (c : Cursor) (pageState : Option String) :
    Cursor × Option GoError × Nat :=
  match c.fetcher with
  | none => (c, some (.fetchFailure "nil fetcher"), 0)
  | some f =>
    match f pageState with
    | (_, _, some e) => (c, some e, 1)
    | (documents, nextState, none) =>
      ({ c with buffer := documents, position := -1, nextPageState := nextState }, none, 1)

/-- Embeds `(*Cursor).Next` (cursor/cursor.go lines 163-214). Returns the Go
boolean, the updated cursor, and the number of fetcher invocations made. -/
def Next (c : Cursor) : Bool × Cursor × Nat :=
  if c.state = .Closed then (false, { c with err := some .cursorClosed }, 0)
  else if c.state = .Exhausted then (false, c, 0)
  else
    match (if c.initialized then (c, none, 0) else fetchPage c none) with
    | (c0, some e, n) => (false, { c0 with err := some e }, n)
    | (c0, none, n) =>
      let c1 := { c0 with initialized := true, state := .Active }
      if c1.position + 1 < (c1.buffer.length : Int) then
        (true, { c1 with position := c1.position + 1 }, n)
      else if pageTokenDone c1.nextPageState then
        (false, { c1 with state := .Exhausted }, n)
      else
        match fetchPage c1 c1.nextPageState with
        | (c2, some e, m) => (false, { c2 with err := some e }, n + m)
        | (c2, none, m) =>
          if c2.buffer.length = 0 then (false, { c2 with state := .Exhausted }, n + m)
          else (true, { c2 with position := 0 }, n + m)

/-- Embeds `(*Cursor).Current` (cursor/cursor.go lines 381-389). -/
def Current (c : Cursor) : Option Json :=
  if c.position < 0 ∨ (c.buffer.length : Int) ≤ c.position then none
  else c.buffer.get? c.position.toNat

/-- Embeds the state-checking part of `(*Cursor).Decode` (cursor/cursor.go
lines 239-252): the closed guard, the current-document guard, and otherwise
the raw buffered document handed to `json.Unmarshal`. -/
def Decode (c : Cursor) : Except GoError Json :=
  if c.state = .Closed then .error .cursorClosed
  else if c.position < 0 ∨ (c.buffer.length : Int) ≤ c.position then
    .error .noCurrentDocument
  else
    match c.buffer.get? c.position.toNat with
    | some doc => .ok doc
    | none => .error .noCurrentDocument

/-- Embeds `(*Cursor).Err` (cursor/cursor.go lines 327-331). -/
def Err (c : Cursor) : Option GoError := c.err

/-- Embeds `(*Cursor).Close` (cursor/cursor.go lines 335-348): always returns
nil; on a not-yet-closed cursor it clears the buffer and token. -/
def Close (c : Cursor) : Option GoError × Cursor :=
  if c.state = .Closed then (none, c)
  else (none, { c with state := .Closed, buffer := [], nextPageState := none })

/-- The page loop of `(*Cursor).All` (cursor/cursor.go lines 300-306), with
fuel bounding the number of iterations; `none` means the loop would still be
running when the fuel ran out. -/
def allPages : Nat → Cursor → List Json → Option (Cursor × Except GoError (List Json))
  | fuel + 1, c, acc =>
    if pageTokenDone c.nextPageState then some ({ c with state := .Exhausted }, .ok acc)
    else
      match fetchPage c c.nextPageState with
      | (c1, some e, _) => some ({ c1 with err := some e }, .error e)
      | (c1, none, _) => allPages fuel c1 (acc ++ c1.buffer)
  | 0, c, acc =>
    if pageTokenDone c.nextPageState then some ({ c with state := .Exhausted }, .ok acc)
    else none

/-- Embeds `(*Cursor).All` (cursor/cursor.go lines 272-323): the closed
guard, the lazy first fetch, the drain of the current buffer from the position
forward, then the page loop; the collected raw documents stand for the JSON
array handed to the caller's decode. -/
def All (fuel : Nat) (c : Cursor) : Option (Cursor × Except GoError (List Json)) :=
  if c.state = .Closed then some (c, .error .cursorClosed)
  else
    match (if c.initialized then (c, none, 0) else fetchPage c none) with
    | (c0, some e, _) => some ({ c0 with err := some e }, .error e)
    | (c0, none, _) =>
      let c1 := { c0 with initialized := true }
      let start :=
        if c1.position < 0 then c1.buffer
        else if c1.position + 1 < (c1.buffer.length : Int) then
          c1.buffer.drop (c1.position + 1).toNat
        else []
      allPages fuel c1 start

/-- A driver repeatedly calling `Next` (at most `fuel` times), collecting the
`Current` document after each true result and summing fetcher invocations;
it stops at the first false result. -/
def drive : Nat → Cursor → List Json × Cursor × Nat
  | 0, c => ([], c, 0)
  | n + 1, c =>
    match Next c with
    | (false, c1, k) => ([], c1, k)
    | (true, c1, k) =>
      let rest := drive n c1
      ((Current c1).toList ++ rest.1, rest.2.1, k + rest.2.2)

/-- C9: `Close` always succeeds and is idempotent, and Closed is absorbing:
on any closed cursor, `Next` returns false recording the closed error as the
terminal error and stays Closed, `Decode` and `All` fail with the closed
error, and `Close` again succeeds without change. -/
theorem close_idempotent_absorbing (c : Cursor) :
    (Close c).1 = none ∧
    (Close c).2.state = .Closed ∧
    Close (Close c).2 = (none, (Close c).2) ∧
    (∀ d : Cursor, d.state = .Closed →
      (Next d).1 = false ∧
      (Next d).2.1 = { d with err := some .cursorClosed } ∧
      (Next d).2.1.state = .Closed ∧
      (Next d).2.2 = 0 ∧
      Err (Next d).2.1 = some .cursorClosed ∧
      Decode d = .error .cursorClosed ∧
      (∀ fuel, All fuel d = some (d, .error .cursorClosed)) ∧
      Close d = (none, d)) := by
  have hstate : (Close c).2.state = .Closed := by
    by_cases h : c.state = .Closed <;> simp [Close, h]
  refine ⟨?_, hstate, ?_, ?_⟩
  · by_cases h : c.state = .Closed <;> simp [Close, h]
  · have hx := hstate
    revert hx
    generalize (Close c).2 = d
    intro hx
    simp [Close, hx]
  · intro d hd
    refine ⟨?_, ?_, ?_, ?_, ?_, ?_, ?_, ?_⟩ <;>
      simp [Next, Decode, All, Close, Err, hd]

/-- Witness for C9: the closed-cursor facts evaluated on a concrete cursor
closed right after construction. -/
theorem close_idempotent_absorbing_witness :
    (Close (NewWithError (.fetchFailure "boom"))).1 = none ∧
    (Next (Close (NewWithError (.fetchFailure "boom"))).2).1 = false ∧
    Decode (Close (NewWithError (.fetchFailure "boom"))).2 = .error .cursorClosed := by
  have h := close_idempotent_absorbing (NewWithError (.fetchFailure "boom"))
  have hc := h.2.2.2 (Close (NewWithError (.fetchFailure "boom"))).2 h.2.1
  exact ⟨h.1, hc.1, hc.2.2.2.2.2.1⟩

/-- C10: a cursor built by `NewWithInitialData` from an empty documents slice
and a nil or empty token is born Exhausted, and each of any number of
subsequent `Next` calls returns false, leaves the cursor unchanged with a nil
terminal error, and never invokes the fetcher. -/
theorem initial_data_empty_exhausted (f : Option PageFetcher) (tok : Option String)
    (h : tok = none ∨ tok = some "") :
    (NewWithInitialData [] tok f).state = .Exhausted ∧
    (NewWithInitialData [] tok f).err = none ∧
    Next (NewWithInitialData [] tok f) = (false, NewWithInitialData [] tok f, 0) ∧
    (∀ n, drive n (NewWithInitialData [] tok f) = ([], NewWithInitialData [] tok f, 0)) := by
  have hstate : (NewWithInitialData [] tok f).state = .Exhausted := by
    rcases h with h | h <;> subst h <;> rfl
  have hnext : Next (NewWithInitialData [] tok f) = (false, NewWithInitialData [] tok f, 0) := by
    rcases h with h | h <;> subst h <;> rfl
  refine ⟨hstate, rfl, hnext, ?_⟩
  intro n
  cases n with
  | zero => rfl
  | succ m => simp [drive, hnext]

/-- Witness for C10: evaluated with a nil token and a nil fetcher. -/
theorem initial_data_empty_exhausted_witness :
    (NewWithInitialData [] none none).state = .Exhausted ∧
    Next (NewWithInitialData [] none none) = (false, NewWithInitialData [] none none, 0) := by
  have h := initial_data_empty_exhausted none none (Or.inl rfl)
  exact ⟨h.1, h.2.2.1⟩

/-- The position invariant of the spec: `position` lies in the integer range
from -1 to `len(buffer) - 1`. -/
def posInv (c : Cursor) : Prop :=
  -1 ≤ c.position ∧ c.position ≤ (c.buffer.length : Int) - 1

instance (c : Cursor) : Decidable (posInv c) := by
  unfold posInv
  infer_instance

lemma posInv_fetchPage (c : Cursor) (ps : Option String) (h : posInv c) :
    posInv (fetchPage c ps).1 := by
  rcases hf : c.fetcher with _ | f
  · simpa [fetchPage, hf] using h
  · rcases hr : f ps with ⟨docs, next, err⟩
    rcases err with _ | e
    · simp [fetchPage, hf, hr, posInv]
    · simpa [fetchPage, hf, hr] using h

lemma posInv_next (c : Cursor) (h : posInv c) : posInv (Next c).2.1 := by
  unfold Next
  by_cases h1 : c.state = .Closed
  · simpa [h1, posInv] using h
  · rw [if_neg h1]
    by_cases h2 : c.state = .Exhausted
    · simpa [h2] using h
    · rw [if_neg h2]
      rcases hinit : (if c.initialized then (c, none, 0) else fetchPage c none) with ⟨c0, e0, n0⟩
      have hc0 : posInv c0 := by
        by_cases hi : c.initialized
        · rw [if_pos hi] at hinit
          cases hinit
          exact h
        · rw [if_neg hi] at hinit
          have hfp := posInv_fetchPage c none h
          rw [hinit] at hfp
          exact hfp
      obtain ⟨ha, hb⟩ := hc0
      rcases e0 with _ | e
      · simp only []
        by_cases h3 : c0.position + 1 < (c0.buffer.length : Int)
        · rw [if_pos h3]
          simp only [posInv]
          constructor <;> omega
        · rw [if_neg h3]
          by_cases h4 : pageTokenDone c0.nextPageState = true
          · rw [if_pos h4]
            simp only [posInv]
            constructor <;> omega
          · rw [if_neg h4]
            rcases hfp : fetchPage { c0 with initialized := true, state := .Active }
                c0.nextPageState with ⟨c2, e2, m⟩
            have hc2 : posInv c2 := by
              have hin := posInv_fetchPage { c0 with initialized := true, state := .Active }
                c0.nextPageState (by simp only [posInv]; constructor <;> omega)
              rw [hfp] at hin
              exact hin
            obtain ⟨ha2, hb2⟩ := hc2
            rcases e2 with _ | e
            · simp only []
              by_cases h5 : c2.buffer.length = 0
              · rw [if_pos h5]
                simp only [posInv]
                constructor <;> omega
              · rw [if_neg h5]
                simp only [posInv]
                constructor <;> omega
            · simp only [posInv]
              constructor <;> omega
      · simp only [posInv]
        constructor <;> omega

lemma posInv_allPages :
    ∀ (fuel : Nat) (c : Cursor) (acc : List Json) (r : Cursor × Except GoError (List Json)),
      posInv c → allPages fuel c acc = some r → posInv r.1 := by
  intro fuel
  induction fuel with
  | zero =>
    intro c acc r h hr
    unfold allPages at hr
    split at hr
    · cases hr
      simpa [posInv] using h
    · cases hr
  | succ m ih =>
    intro c acc r h hr
    unfold allPages at hr
    split at hr
    · cases hr
      simpa [posInv] using h
    · rcases hfp : fetchPage c c.nextPageState with ⟨c1, e1, k⟩
      rw [hfp] at hr
      have hc1 : posInv c1 := by
        have := posInv_fetchPage c c.nextPageState h
        rw [hfp] at this
        exact this
      rcases e1 with _ | e
      · exact ih c1 (acc ++ c1.buffer) r hc1 hr
      · simp only [] at hr
        cases hr
        simpa [posInv] using hc1

lemma posInv_all (fuel : Nat) (c : Cursor) (r : Cursor × Except GoError (List Json))
    (h : posInv c) (hr : All fuel c = some r) : posInv r.1 := by
  unfold All at hr
  by_cases h1 : c.state = .Closed
  · rw [if_pos h1] at hr
    cases hr
    exact h
  · rw [if_neg h1] at hr
    rcases hinit : (if c.initialized then (c, none, 0) else fetchPage c none) with ⟨c0, e0, n0⟩
    rw [hinit] at hr
    have hc0 : posInv c0 := by
      by_cases hi : c.initialized
      · rw [if_pos hi] at hinit
        cases hinit
        exact h
      · rw [if_neg hi] at hinit
        have := posInv_fetchPage c none h
        rw [hinit] at this
        exact this
    rcases e0 with _ | e
    · simp only [] at hr
      exact posInv_allPages fuel _ _ r (by simpa [posInv] using hc0) hr
    · simp only [] at hr
      cases hr
      simpa [posInv] using hc0

/-- Counterexample to C4: a cursor built by `NewWithError` is not Closed (it
is Exhausted), yet its position is the Go zero value 0 while its buffer is
empty, so the position exceeds `len(buffer) - 1 = -1`. -/
theorem position_range_counterexample :
    (NewWithError (.fetchFailure "invalid filter")).state ≠ CursorState.Closed ∧
    ¬ posInv (NewWithError (.fetchFailure "invalid filter")) := by
  constructor
  · decide
  · decide

/-- C4 (amended): the position invariant − 1 ≤ position ≤ len(buffer) − 1
holds immediately after construction by `New` or `NewWithInitialData` (but not
after `NewWithError`, whose position is 0 with an empty buffer), and is
preserved by every `Next` and every completed `All` (`Decode` leaves the
cursor unchanged). -/
theorem position_range_invariant :
    (∀ f, posInv (New f)) ∧
    (∀ docs tok f, posInv (NewWithInitialData docs tok f)) ∧
    (∀ c, posInv c → posInv (Next c).2.1) ∧
    (∀ fuel c r, posInv c → All fuel c = some r → posInv r.1) := by
  refine ⟨?_, ?_, posInv_next, posInv_all⟩
  · intro f
    constructor <;> simp [New]
  · intro docs tok f
    simp only [posInv, NewWithInitialData]
    constructor <;> omega

/-- Witness for C4 (amended): the invariant evaluated after a first `Next` on
a fresh cursor, and on the result of a completed `All`. -/
theorem position_range_invariant_witness :
    posInv (Next (New (fun _ => ([], none, none)))).2.1 ∧
    posInv ({ fetcher := some (fun _ => ([], none, none)), state := .Exhausted, buffer := [],
              position := -1, nextPageState := none, err := none, initialized := true } : Cursor) := by
  have h := position_range_invariant
  refine ⟨h.2.2.1 _ (h.1 _), ?_⟩
  exact (h.2.2.2 1 (New (fun _ => ([], none, none)))
    ({ fetcher := some (fun _ => ([], none, none)), state := .Exhausted, buffer := [],
       position := -1, nextPageState := none, err := none, initialized := true }, Except.ok [])
    (h.1 _) rfl)

/-- C2: over any pure fetcher yielding page [a1, a2] with token T1, then for
T1 page [b1, b2] with token T2, then for T2 page [c1] with nil token (T1, T2
non-empty), driving a fresh cursor to exhaustion yields exactly the five
documents in page-concatenation order, exactly three fetcher invocations, a
final state of Exhausted with a nil terminal error, and a further `Next`
returning false. -/
theorem cursor_multipage (f : PageFetcher) (a1 a2 b1 b2 d1 : Json) (T1 T2 : String)
    (hT1 : ¬ T1 = "") (hT2 : ¬ T2 = "")
    (h0 : f none = ([a1, a2], some T1, none))
    (h1 : f (some T1) = ([b1, b2], some T2, none))
    (h2 : f (some T2) = ([d1], none, none)) :
    (drive 6 (New f)).1 = [a1, a2, b1, b2, d1] ∧
    (drive 6 (New f)).2.2 = 3 ∧
    (drive 6 (New f)).2.1.state = .Exhausted ∧
    Err (drive 6 (New f)).2.1 = none ∧
    (Next (drive 6 (New f)).2.1).1 = false := by
  refine ⟨?_, ?_, ?_, ?_, ?_⟩ <;>
    simp [drive, Next, New, fetchPage, Current, pageTokenDone, Err,
      h0, h1, h2, beq_iff_eq, hT1, hT2]

/-- The three-page fetcher of the multi-page scenario, with concrete
documents and tokens. -/
def threePageFetcher : PageFetcher := fun ps =>
  match ps with
  | none => ([.num 1, .num 2], some "t1", none)
  | some "t1" => ([.num 3, .num 4], some "t2", none)
  | some "t2" => ([.num 5], none, none)
  | some _ => ([], none, none)

/-- Witness for C2: the multi-page run evaluated on the concrete three-page
fetcher. -/
theorem cursor_multipage_witness :
    (drive 6 (New threePageFetcher)).1 = [.num 1, .num 2, .num 3, .num 4, .num 5] ∧
    (drive 6 (New threePageFetcher)).2.2 = 3 ∧
    (drive 6 (New threePageFetcher)).2.1.state = .Exhausted := by
  have h := cursor_multipage threePageFetcher (.num 1) (.num 2) (.num 3) (.num 4) (.num 5)
    "t1" "t2" (by decide) (by decide) rfl rfl rfl
  exact ⟨h.1, h.2.1, h.2.2.1⟩

end Cur

end AstraDB
